import Mathlib

/-
  Verification development for the auto-dev-agent repository.

  Shallow embedding of the core components:
  - status-document merger (orchestrator.py: _find_heading_range,
    _insert_todo_if_missing)
  - artifact writer path check (executor.py: Executor.write_files)
  - backend selector / request dispatcher (agent.py: _pick_best_model_name,
    refresh_model, _parse_retry_delay, ask)
  - structured response extractor (agent.py: ask_json,
    _extract_json_candidate, _validate_implementer_payload,
    _normalize_implementer_payload)
  - iteration controller (orchestrator.py: _run_iteration)

  Python strings are modelled as Lean String, timestamps (time.time(),
  float seconds) as rationals, dicts as association lists with
  first-match lookup.  Library calls external to the repository
  (json.loads, the network client, the evaluator, git) are oracle
  parameters; everything written in the repository is embedded
  faithfully.
-/

/-! ## Python string helpers -/

/-- Containment of `needle` at some position of `hay` (Python `needle in hay`),
checked position by position. -/
def infixAt : List Char → List Char → Bool
  | needle, [] => needle.isEmpty
  | needle, c :: t => needle.isPrefixOf (c :: t) || infixAt needle t

/-- Python `needle in hay` on strings. -/
def strContains (hay needle : String) : Bool :=
  infixAt needle.toList hay.toList

/-- Python `s.startswith(p)`. -/
def strStartsWith (s p : String) : Bool :=
  p.toList.isPrefixOf s.toList

/-- Python `s.endswith(p)`. -/
def strEndsWith (s p : String) : Bool :=
  p.toList.isSuffixOf s.toList

/-- Python `s.strip()`: drop whitespace from both ends. -/
def pyStrip (s : String) : String :=
  String.mk (((s.toList.dropWhile Char.isWhitespace).reverse.dropWhile
    Char.isWhitespace).reverse)

/-- Splitting a character list at every LF, keeping empty pieces. -/
def splitLinesAux : List Char → List Char → List String
  | acc, [] => [String.mk acc.reverse]
  | acc, c :: t =>
      if c = '\n' then String.mk acc.reverse :: splitLinesAux [] t
      else splitLinesAux (c :: acc) t

/-- Python `str.splitlines()` restricted to LF separators (the documents the
program writes use LF): split on newline, with no entry for a trailing
newline and `[]` for the empty string. -/
def pySplitlines (s : String) : List String :=
  if s = "" then []
  else
    let parts := splitLinesAux [] s.toList
    if strEndsWith s ("\n") then parts.dropLast else parts

/-- Python `"\n".join(lines)`. -/
def joinNL : List String → String
  | [] => ""
  | [l] => l
  | l :: ls => l ++ ("\n") ++ joinNL ls

/-- Python `list.insert(n, x)` (clamps `n` to the length). -/
def insertAt (n : Nat) (x : String) (l : List String) : List String :=
  l.take n ++ [x] ++ l.drop n

/-! ## Status document merger (orchestrator.py) -/

def TODO_HEADERS : List String := ["## TODO", "## やること"]

def NEXT_PLAN_HEADERS : List String := ["## Next Iteration Plan", "## 次のイテレーション計画"]

def CURRENT_ITER_HEADERS : List String := ["## Current Iteration", "## 現在のイテレーション"]

/-- `Orchestrator._find_heading_range`: index of the first line whose stripped
text is one of the headings, and the index of the next level-2 heading after
it (or the number of lines). -/
def find_heading_range (lines : List String) (headings : List String) : Option (Nat × Nat) :=
  match lines.findIdx? (fun l => headings.contains (pyStrip l)) with
  | none => none
  | some start =>
      let e :=
        match (lines.drop (start + 1)).findIdx? (fun l => strStartsWith l ("## ")) with
        | some j => start + 1 + j
        | none => lines.length
      some (start, e)

/-- `Orchestrator._insert_todo_if_missing`: no-op when the item is present in
checked or unchecked form, else insert an unchecked line at the end of the
TODO section, else before the Next-Plan heading, else append at the end. -/
def insert_todo_if_missing (status_text : String) (todo_item : String) : String :=
  let unchecked := ("- [ ] ") ++ todo_item
  let checked := ("- [x] ") ++ todo_item
  if strContains status_text unchecked || strContains status_text checked then
    status_text
  else
    let lines := pySplitlines status_text
    let tail := if strEndsWith status_text ("\n") then ("\n") else ("")
    match find_heading_range lines TODO_HEADERS with
    | some (_, e) => joinNL (insertAt e unchecked lines) ++ tail
    | none =>
      match find_heading_range lines NEXT_PLAN_HEADERS with
      | some (s, _) => joinNL (insertAt s unchecked lines) ++ tail
      | none => status_text ++ ("\n") ++ unchecked ++ ("\n")

/-! ## Containment lemmas -/

theorem isPrefixOf_append_self (n b : List Char) : n.isPrefixOf (n ++ b) = true := by
  induction n with
  | nil => simp [List.isPrefixOf]
  | cons c t ih => simp [List.isPrefixOf, ih]

theorem infixAt_nil (hay : List Char) : infixAt [] hay = true := by
  cases hay with
  | nil => simp [infixAt]
  | cons c t => simp [infixAt, List.isPrefixOf]

theorem infixAt_append_self (n a b : List Char) : infixAt n (a ++ (n ++ b)) = true := by
  induction a with
  | nil =>
      cases n with
      | nil => exact infixAt_nil b
      | cons c t => simp [infixAt, isPrefixOf_append_self]
  | cons c t ih => simp [infixAt, ih]

theorem toList_append (s t : String) : (s ++ t).toList = s.toList ++ t.toList := by
  simp [String.toList]

/-- Any member of a list of lines appears as an infix of their join. -/
theorem joinNL_decomp (l : String) (lines : List String) (h : l ∈ lines) :
    ∃ a b, (joinNL lines).toList = a ++ (l.toList ++ b) := by
  induction lines with
  | nil => cases h
  | cons x xs ih =>
      cases h with
      | head =>
          cases xs with
          | nil => exact ⟨[], [], by simp [joinNL]⟩
          | cons y ys =>
              refine ⟨[], (("\n") ++ joinNL (y :: ys)).toList, ?_⟩
              simp [joinNL, toList_append]
      | tail _ hmem =>
          obtain ⟨a, b, hab⟩ := ih hmem
          cases xs with
          | nil => cases hmem
          | cons y ys =>
              refine ⟨(x ++ ("\n")).toList ++ a, b, ?_⟩
              have hj : joinNL (x :: y :: ys) = (x ++ ("\n")) ++ joinNL (y :: ys) := by
                simp [joinNL]
              rw [hj, toList_append, hab]
              simp [List.append_assoc]

theorem strContains_of_decomp (s n : String) (a b : List Char)
    (h : s.toList = a ++ (n.toList ++ b)) : strContains s n = true := by
  unfold strContains
  rw [h]
  exact infixAt_append_self n.toList a b

theorem strContains_join_of_mem (l : String) (lines : List String) (t : String)
    (h : l ∈ lines) : strContains (joinNL lines ++ t) l = true := by
  obtain ⟨a, b, hab⟩ := joinNL_decomp l lines h
  refine strContains_of_decomp _ _ a (b ++ t.toList) ?_
  rw [toList_append, hab]
  simp [List.append_assoc]

theorem mem_insertAt (n : Nat) (x : String) (l : List String) : x ∈ insertAt n x l := by
  simp [insertAt]

theorem strContains_append_middle (s n t : String) :
    strContains (s ++ (n ++ t)) n = true := by
  refine strContains_of_decomp _ _ s.toList t.toList ?_
  simp [toList_append]

theorem insert_todo_noop_of_contains (doc item : String)
    (h : strContains doc (("- [ ] ") ++ item) = true ∨
         strContains doc (("- [x] ") ++ item) = true) :
    insert_todo_if_missing doc item = doc := by
  unfold insert_todo_if_missing
  rcases h with h | h <;> simp [h]

theorem insert_todo_contains_or_eq (doc item : String) :
    strContains (insert_todo_if_missing doc item) (("- [ ] ") ++ item) = true ∨
    insert_todo_if_missing doc item = doc := by
  unfold insert_todo_if_missing
  by_cases h : (strContains doc (("- [ ] ") ++ item)
      || strContains doc (("- [x] ") ++ item)) = true
  · rw [if_pos h]
    right
    rfl
  · rw [if_neg h]
    left
    cases h1 : find_heading_range (pySplitlines doc) TODO_HEADERS with
    | some se =>
        obtain ⟨s, e⟩ := se
        simp only [h1]
        exact strContains_join_of_mem _ _ _ (mem_insertAt e _ _)
    | none =>
        simp only [h1]
        cases h2 : find_heading_range (pySplitlines doc) NEXT_PLAN_HEADERS with
        | some se =>
            obtain ⟨s, e⟩ := se
            simp only [h2]
            exact strContains_join_of_mem _ _ _ (mem_insertAt s _ _)
        | none =>
            simp only [h2]
            refine strContains_of_decomp _ _ (doc ++ ("\n")).toList ("\n").toList ?_
            simp [toList_append, List.append_assoc]

/-- C9: applying `addIfMissing` twice yields the same document as applying it
once; and a document already containing the item in checked or unchecked form
is returned unchanged. -/
theorem C9_insert_todo_idempotent (doc item : String) :
    insert_todo_if_missing (insert_todo_if_missing doc item) item
      = insert_todo_if_missing doc item ∧
    ((strContains doc (("- [ ] ") ++ item) = true ∨
      strContains doc (("- [x] ") ++ item) = true) →
      insert_todo_if_missing doc item = doc) := by
  constructor
  · rcases insert_todo_contains_or_eq doc item with h | h
    · exact insert_todo_noop_of_contains _ item (Or.inl h)
    · rw [h]
      exact h
  · exact insert_todo_noop_of_contains doc item

/-- Witness for C9 at a concrete document: a document already containing the
unchecked item is left unchanged. -/
theorem C9_witness :
    insert_todo_if_missing ("- [ ] X") ("X") = ("- [ ] X") :=
  (C9_insert_todo_idempotent ("- [ ] X") ("X")).2 (Or.inl (by decide))

/-! ## JSON values (the payloads handled by agent.py) -/

/-- JSON-like values as produced by `json.loads`.  Numbers are modelled as
rationals (the payloads the program inspects only ever compare types). -/
inductive JValue where
  | null
  | bool (b : Bool)
  | num (q : ℚ)
  | str (s : String)
  | arr (items : List JValue)
  | obj (entries : List (String × JValue))

/-- Python dict lookup (`d[k]` / `d.get(k)`): first matching key. -/
def jLookup (kvs : List (String × JValue)) (k : String) : Option JValue :=
  match kvs.find? (fun kv => kv.1 == k) with
  | some kv => some kv.2
  | none => none

/-- Python `d.get(k, default)` where a string is expected: returns the string
value when present, else the default (the call sites are reached only with
string-typed values, guaranteed by the validator upstream). -/
def jStrD (kvs : List (String × JValue)) (k : String) (d : String) : String :=
  match jLookup kvs k with
  | some (JValue.str s) => s
  | _ => d

/-! ## Artifact writer (executor.py) -/

/-- One component step of lexical path resolution (`Path.resolve()` with no
symlinks): empty components and `.` are skipped, `..` removes the last
component (and is a no-op at the root). -/
def resolveStep (acc : List String) (c : String) : List String :=
  if c = ("") ∨ c = (".") then acc
  else if c = ("..") then acc.dropLast
  else acc ++ [c]

/-- Splitting a path string at every slash. -/
def splitSlashAux : List Char → List Char → List String
  | acc, [] => [String.mk acc.reverse]
  | acc, c :: t =>
      if c = '/' then String.mk acc.reverse :: splitSlashAux [] t
      else splitSlashAux (c :: acc) t

def splitSlash (p : String) : List String :=
  splitSlashAux [] p.toList

/-- `(workspace / path_str).resolve()` for an already-resolved absolute
workspace given by its components: `Path.__truediv__` restarts from the
filesystem root when `path_str` is absolute. -/
def resolvePath (base : List String) (p : String) : List String :=
  let start := if strStartsWith p ("/") then [] else base
  (splitSlash p).foldl resolveStep start

/-- `str(path)` for an absolute path given by its components. -/
def joinSlash : List String → String
  | [] => ""
  | [x] => x
  | x :: xs => x ++ ("/") ++ joinSlash xs

def joinAbs (parts : List String) : String :=
  ("/") ++ joinSlash parts

/-- The path gate in `Executor.write_files`:
`str(target).startswith(str(self.workspace.resolve()))`. -/
def write_path_allowed (root : List String) (p : String) : Bool :=
  strStartsWith (joinAbs (resolvePath root p)) (joinAbs root)

/-- Follows the spec's words, for comparison with the code's gate: a resolved
target lies inside the designated root iff the root's components are a
componentwise prefix of the target's components. -/
def inside_designated_root (root : List String) (p : String) : Bool :=
  root.isPrefixOf (resolvePath root p)

/-- The workspace contents: resolved absolute path components ↦ file text. -/
def FileStore : Type := List String → Option String

/-- `Executor.write_files`: for each entry read `path` and `content` with
empty-string defaults, skip empty paths, resolve against the workspace root,
skip entries failing the string-prefix gate, and write the rest
(`mkdir` has no effect on the store model). -/
def write_files (root : List String) (files : List JValue) (ws : FileStore) : FileStore :=
  files.foldl (fun acc file_info =>
    let path_str := match file_info with
      | JValue.obj kvs => jStrD kvs ("path") ("")
      | _ => ("")
    let content := match file_info with
      | JValue.obj kvs => jStrD kvs ("content") ("")
      | _ => ("")
    if path_str = ("") then acc
    else if write_path_allowed root path_str then
      fun k => if k = resolvePath root path_str then some content else acc k
    else acc) ws

/-- The empty workspace. -/
def emptyStore : FileStore := fun _ => none

/-- C2: the writer's gate is a plain string-prefix test on the resolved
path, so a sibling directory whose name extends the workspace root's name
passes the gate although it lies outside the root: with workspace
`/proj/workspace`, the entry path `../workspace-evil/x.txt` resolves to
`/proj/workspace-evil/x.txt`, is accepted, and is written outside the
designated root. -/
theorem C2_write_escapes_root :
    write_path_allowed ["proj", "workspace"] ("../workspace-evil/x.txt") = true ∧
    inside_designated_root ["proj", "workspace"] ("../workspace-evil/x.txt") = false ∧
    write_files ["proj", "workspace"]
      [JValue.obj [(("path"), JValue.str ("../workspace-evil/x.txt")),
                   (("content"), JValue.str ("owned"))]]
      emptyStore ["proj", "workspace-evil", "x.txt"] = some ("owned") := by
  refine ⟨by decide, by decide, ?_⟩
  decide

/-! ## Backend selector (agent.py) -/

/-- A cooldown table: model name ↦ Unix timestamp until which it is cooling
(0 = available).  In the source this is the dict `_cooldown_until`, keyed by
every configured model name. -/
def Cooldown : Type := String → ℚ

/-- Lookup loop of `_pick_best_model_name`: the first configured model (in
priority order) whose cooldown has expired. -/
def firstEligible (models : List String) (cd : Cooldown) (now : ℚ) : Option String :=
  models.find? (fun n => decide (cd n ≤ now))

/-- Python `min(models, key=lambda m: cooldown[m])`: the first element with
the minimal key. -/
def earliestStep (cd : Cooldown) (acc : Option String) (n : String) : Option String :=
  match acc with
  | none => some n
  | some b => if cd n < cd b then some n else some b

def earliestModel (models : List String) (cd : Cooldown) : Option String :=
  models.foldl (earliestStep cd) none

/-- `Agent._pick_best_model_name`: the first eligible model with no wait;
otherwise the earliest-recovering model after sleeping
`max(0, cooldown - now) + 1` seconds.  `none` only when no models are
configured (the constructor forbids that; Python would raise there). -/
def pick_best (models : List String) (cd : Cooldown) (now : ℚ) : Option (String × ℚ) :=
  match firstEligible models cd now with
  | some n => some (n, 0)
  | none =>
      match earliestModel models cd with
      | some n => some (n, max 0 (cd n - now) + 1)
      | none => none

/-- `Agent.refresh_model`: switch to the first model whose cooldown has
expired; keep the current one when every model is cooling. -/
def refresh_model (models : List String) (cd : Cooldown) (now : ℚ) (cur : String) :
    String :=
  match firstEligible models cd now with
  | some n => n
  | none => cur

/-! ## Selector lemmas -/

theorem find?_decomp {α : Type} (p : α → Bool) (l : List α) (a : α)
    (h : l.find? p = some a) :
    ∃ s t, l = s ++ a :: t ∧ p a = true ∧ ∀ x ∈ s, p x = false := by
  induction l with
  | nil => simp [List.find?] at h
  | cons x xs ih =>
      cases hpx : p x with
      | true =>
          have hxa : x = a := by
            rw [List.find?, hpx] at h
            simpa using h
          subst hxa
          exact ⟨[], xs, rfl, hpx, by simp⟩
      | false =>
          rw [List.find?, hpx] at h
          obtain ⟨s, t, hl, hpa, hs⟩ := ih h
          exact ⟨x :: s, t, by simp [hl], hpa, by
            intro y hy
            cases hy with
            | head => exact hpx
            | tail _ hy => exact hs y hy⟩

theorem find?_append_cons {α : Type} (p : α → Bool) (s : List α) (a : α) (t : List α)
    (hs : ∀ x ∈ s, p x = false) (ha : p a = true) :
    (s ++ a :: t).find? p = some a := by
  induction s with
  | nil => simp [List.find?, ha]
  | cons x xs ih =>
      have hx : p x = false := hs x (by simp)
      simp only [List.cons_append, List.find?, hx]
      exact ih (fun y hy => hs y (by simp [hy]))

theorem find?_first_in_s {α : Type} (p : α → Bool) (s : List α) (a : α) (t : List α)
    (hx : ∃ x ∈ s, p x = true) :
    ∃ n s2 t2, (s ++ a :: t).find? p = some n ∧ s = s2 ++ n :: t2 ∧ p n = true ∧
      ∀ x ∈ s2, p x = false := by
  induction s with
  | nil => simp at hx
  | cons y ys ih =>
      cases hpy : p y with
      | true =>
          exact ⟨y, [], ys, by simp [List.find?, hpy], rfl, hpy, by simp⟩
      | false =>
          obtain ⟨x, hxm, hxp⟩ := hx
          have hxys : x ∈ ys := by
            cases hxm with
            | head => rw [hxp] at hpy; cases hpy
            | tail _ h => exact h
          obtain ⟨n, s2, t2, hn, hdec, hpn, hs2⟩ := ih ⟨x, hxys, hxp⟩
          refine ⟨n, y :: s2, t2, ?_, by simp [hdec], hpn, ?_⟩
          · simp only [List.cons_append, List.find?, hpy]
            exact hn
          · intro z hz
            cases hz with
            | head => exact hpy
            | tail _ hz => exact hs2 z hz

theorem earliest_go (cd : Cooldown) (l : List String) :
    ∀ b : String, ∃ m, l.foldl (earliestStep cd) (some b) = some m ∧
      (m = b ∨ m ∈ l) ∧ cd m ≤ cd b ∧ ∀ x ∈ l, cd m ≤ cd x := by
  induction l with
  | nil => exact fun b => ⟨b, rfl, Or.inl rfl, le_refl _, by simp⟩
  | cons n t ih =>
      intro b
      by_cases hnb : cd n < cd b
      · obtain ⟨m, hm, hmem, hle, hall⟩ := ih n
        refine ⟨m, ?_, ?_, ?_, ?_⟩
        · simpa [earliestStep, hnb] using hm
        · rcases hmem with h | h
          · exact Or.inr (by simp [h])
          · exact Or.inr (by simp [h])
        · exact le_trans hle (le_of_lt hnb)
        · intro x hx
          cases hx with
          | head => exact hle
          | tail _ hx => exact hall x hx
      · obtain ⟨m, hm, hmem, hle, hall⟩ := ih b
        refine ⟨m, ?_, ?_, hle, ?_⟩
        · simpa [earliestStep, hnb] using hm
        · rcases hmem with h | h
          · exact Or.inl h
          · exact Or.inr (by simp [h])
        · intro x hx
          cases hx with
          | head => exact le_trans hle (not_lt.mp hnb)
          | tail _ hx => exact hall x hx

theorem earliestModel_spec (models : List String) (cd : Cooldown)
    (hne : models ≠ []) :
    ∃ m, earliestModel models cd = some m ∧ m ∈ models ∧
      ∀ x ∈ models, cd m ≤ cd x := by
  cases models with
  | nil => exact absurd rfl hne
  | cons n t =>
      obtain ⟨m, hm, hmem, hle, hall⟩ := earliest_go cd t n
      refine ⟨m, ?_, ?_, ?_⟩
      · simpa [earliestModel, earliestStep] using hm
      · rcases hmem with h | h
        · simp [h]
        · simp [h]
      · intro x hx
        cases hx with
        | head => exact hle
        | tail _ hx => exact hall x hx

/-- C3: `pick_best` returns the lowest-rank (earliest-listed) backend whose
cooldown has expired, with no wait; when no backend is eligible it returns
the backend with the earliest cooldown together with a sleep that lasts past
that cooldown. -/
theorem C3_pick_best_correct (models : List String) (cd : Cooldown) (now : ℚ)
    (hne : models ≠ []) :
    ∃ m w, pick_best models cd now = some (m, w) ∧
      ((∃ s t, models = s ++ m :: t ∧ cd m ≤ now ∧ (∀ x ∈ s, ¬ cd x ≤ now) ∧ w = 0) ∨
       ((∀ x ∈ models, ¬ cd x ≤ now) ∧ m ∈ models ∧ (∀ x ∈ models, cd m ≤ cd x) ∧
         cd m ≤ now + w)) := by
  cases hfe : firstEligible models cd now with
  | some n =>
      obtain ⟨s, t, hl, hpa, hs⟩ := find?_decomp _ models n hfe
      refine ⟨n, 0, by simp [pick_best, hfe], Or.inl ⟨s, t, hl, ?_, ?_, rfl⟩⟩
      · exact of_decide_eq_true hpa
      · intro x hx
        have := hs x hx
        simpa using this
  | none =>
      obtain ⟨m, hm, hmem, hall⟩ := earliestModel_spec models cd hne
      have hnone : ∀ x ∈ models, ¬ cd x ≤ now := by
        intro x hx
        have := List.find?_eq_none.mp hfe x hx
        simpa using this
      refine ⟨m, max 0 (cd m - now) + 1, by simp [pick_best, hfe, hm], Or.inr
        ⟨hnone, hmem, hall, ?_⟩⟩
      have h1 : cd m - now ≤ max 0 (cd m - now) := le_max_right _ _
      linarith

/-- Witness for C3: two backends, both available; the theorem applies and
returns the first. -/
theorem C3_witness :
    ∃ m w, pick_best ["A", "B"] (fun _ => (0 : ℚ)) 0 = some (m, w) ∧
      ((∃ s t, (["A", "B"] : List String) = s ++ m :: t ∧
          (fun _ => (0 : ℚ)) m ≤ 0 ∧ (∀ x ∈ s, ¬ (fun _ => (0 : ℚ)) x ≤ 0) ∧ w = 0) ∨
       ((∀ x ∈ (["A", "B"] : List String), ¬ (fun _ => (0 : ℚ)) x ≤ 0) ∧
         m ∈ (["A", "B"] : List String) ∧
         (∀ x ∈ (["A", "B"] : List String), (fun _ => (0 : ℚ)) m ≤ (fun _ => (0 : ℚ)) x) ∧
         (fun _ => (0 : ℚ)) m ≤ 0 + w)) :=
  C3_pick_best_correct ["A", "B"] (fun _ => (0 : ℚ)) 0 (by simp)

/-- The cooldown table of the C7 counterexample: the current backend A is
cooling until time 10, B is available. -/
def c7cd : Cooldown := fun n => if n = ("A") then 10 else 0

/-- C7 counterexample: at time 5, with current backend A (rank 0) itself on
cooldown and B (rank 1) available, `refresh_model` switches the selection to
B even though no backend of strictly lower rank than A is eligible — so
"changes if and only if a strictly lower-rank backend is eligible" fails as
stated. -/
theorem C7_counterexample :
    refresh_model ["A", "B"] c7cd 5 ("A") = ("B") ∧
    ¬ ∃ x ∈ (["A", "B"] : List String),
        List.indexOf x ["A", "B"] < List.indexOf ("A") ["A", "B"] ∧ c7cd x ≤ 5 := by
  constructor
  · decide
  · decide

/-- C7 (amended): provided the current backend is itself eligible,
`refresh_model` keeps the selection iff no strictly lower-rank backend is
eligible, and otherwise promotes to the lowest-rank eligible backend;
repeated calls with unchanged cooldowns and time are idempotent
(the idempotence needs no hypothesis). -/
theorem C7_refresh_amended (models : List String) (cd : Cooldown) (now : ℚ)
    (s t : List String) (cur : String) (hm : models = s ++ cur :: t)
    (hcs : cur ∉ s) (hcur : cd cur ≤ now) :
    ((∀ x ∈ s, ¬ cd x ≤ now) → refresh_model models cd now cur = cur) ∧
    ((∃ x ∈ s, cd x ≤ now) →
        refresh_model models cd now cur ≠ cur ∧
        ∃ s2 t2, s = s2 ++ refresh_model models cd now cur :: t2 ∧
          cd (refresh_model models cd now cur) ≤ now ∧
          ∀ x ∈ s2, ¬ cd x ≤ now) ∧
    refresh_model models cd now (refresh_model models cd now cur) =
      refresh_model models cd now cur := by
  refine ⟨?_, ?_, ?_⟩
  · intro hs
    have hfe : firstEligible models cd now = some cur := by
      rw [hm]
      exact find?_append_cons _ s cur t
        (fun x hx => by simpa using hs x hx) (by simpa using hcur)
    simp [refresh_model, hfe]
  · intro hex
    obtain ⟨x, hxm, hxp⟩ := hex
    obtain ⟨n, s2, t2, hn, hdec, hpn, hs2⟩ :=
      find?_first_in_s (fun y => decide (cd y ≤ now)) s cur t ⟨x, hxm, by simpa using hxp⟩
    have hfe : firstEligible models cd now = some n := by rw [hm]; exact hn
    have hrn : refresh_model models cd now cur = n := by simp [refresh_model, hfe]
    have hnm : n ∈ s := by simp [hdec]
    refine ⟨by rw [hrn]; intro hcon; exact hcs (hcon ▸ hnm), s2, t2,
      by rw [hrn]; exact hdec,
      by rw [hrn]; exact of_decide_eq_true hpn,
      fun z hz => by simpa using hs2 z hz⟩
  · cases hfe : firstEligible models cd now with
    | some n => simp [refresh_model, hfe]
    | none => simp [refresh_model, hfe]

/-- Witness for C7 (amended) at a concrete state: current backend A eligible,
no better backend, so the selection is unchanged and idempotent. -/
theorem C7_witness :
    ((∀ x ∈ ([] : List String), ¬ (fun _ => (0 : ℚ)) x ≤ 0) →
        refresh_model ["A", "B"] (fun _ => (0 : ℚ)) 0 ("A") = ("A")) ∧
    ((∃ x ∈ ([] : List String), (fun _ => (0 : ℚ)) x ≤ 0) →
        refresh_model ["A", "B"] (fun _ => (0 : ℚ)) 0 ("A") ≠ ("A") ∧
        ∃ s2 t2, ([] : List String) = s2 ++
            refresh_model ["A", "B"] (fun _ => (0 : ℚ)) 0 ("A") :: t2 ∧
          (fun _ => (0 : ℚ)) (refresh_model ["A", "B"] (fun _ => (0 : ℚ)) 0 ("A")) ≤ 0 ∧
          ∀ x ∈ s2, ¬ (fun _ => (0 : ℚ)) x ≤ 0) ∧
    refresh_model ["A", "B"] (fun _ => (0 : ℚ)) 0
        (refresh_model ["A", "B"] (fun _ => (0 : ℚ)) 0 ("A")) =
      refresh_model ["A", "B"] (fun _ => (0 : ℚ)) 0 ("A") :=
  C7_refresh_amended ["A", "B"] (fun _ => (0 : ℚ)) 0 [] ["B"] ("A") rfl
    (by simp) (by norm_num)

/-! ## Retry-delay parser (agent.py: _parse_retry_delay) -/

/-- The greedy run of decimal digits at the head of a character list, with
the remainder. -/
def digitRun : List Char → List Char × List Char
  | [] => ([], [])
  | c :: t =>
      if c.isDigit then
        let p := digitRun t
        (c :: p.1, p.2)
      else ([], c :: t)

/-- Numeric value of a digit run. -/
def digitsToNat (ds : List Char) : ℕ :=
  ds.foldl (fun a c => a * 10 + (c.toNat - ('0').toNat)) 0

/-- Value of the captured decimal `d.f` (empty fractional part = none
present). -/
def capturedVal (df : List Char × List Char) : ℚ :=
  (digitsToNat df.1 : ℚ) + (digitsToNat df.2 : ℚ) / (10 : ℚ) ^ df.2.length

/-- The regex tail `\s*s` (IGNORECASE): optional whitespace then the letter
s. -/
def sUnitAfter (cs : List Char) : Bool :=
  match cs.dropWhile Char.isWhitespace with
  | c :: _ => c.toLower = 's'
  | [] => false

/-- The word `retry` (IGNORECASE) at the head of the text. -/
def isRetryAt (cs : List Char) : Bool :=
  (cs.take 5).map Char.toLower = ['r', 'e', 't', 'r', 'y']

/-- The part of the pattern after `retry`: `[^0-9]*?(\d+(?:\.\d+)?)\s*s`.
The lazy non-digit skip can only stop at the first digit run; within the
captured number, the regex backtracking collapses because any shorter
greedy-run choice leaves a digit in front of `\s*s`.  Returns the captured
number on a match. -/
def matchAfterRetry (cs : List Char) : Option (List Char × List Char) :=
  let afterSkip := cs.dropWhile (fun c => !c.isDigit)
  let d := digitRun afterSkip
  if d.1.isEmpty then none
  else
    match d.2 with
    | '.' :: r1 =>
        let f := digitRun r1
        if !f.1.isEmpty && sUnitAfter f.2 then some (d.1, f.1)
        else if sUnitAfter d.2 then some (d.1, []) else none
    | r => if sUnitAfter r then some (d.1, []) else none

/-- `re.search` for `retry[^0-9]*?(\d+(?:\.\d+)?)\s*s` (IGNORECASE): try every
start position left to right; the captured number is returned as its integer
and fractional digit runs. -/
def retrySearch : List Char → Option (List Char × List Char)
  | [] => none
  | c :: t =>
      match (if isRetryAt (c :: t) then matchAfterRetry ((c :: t).drop 5) else none) with
      | some v => some v
      | none => retrySearch t

/-- `Agent._parse_retry_delay`: on a match return the captured number plus a
2-second margin, else the configured `model_switch_wait`. -/
def parse_retry_delay (switch_wait : ℚ) (e : String) : ℚ :=
  match retrySearch e.toList with
  | some df => capturedVal df + 2
  | none => switch_wait

/-- C8 counterexample: on the error text `Please retry in 25.26s, thanks`
the number found near "retry" is 25.26, but the computed wait is 27.26 —
the code adds a 2-second margin, so the recommended wait does not equal the
number found. -/
theorem C8_counterexample :
    retrySearch (("Please retry in 25.26s, thanks").toList) = some (['2', '5'], ['2', '6']) ∧
    capturedVal (['2', '5'], ['2', '6']) = (25.26 : ℚ) ∧
    parse_retry_delay 10 ("Please retry in 25.26s, thanks") = (27.26 : ℚ) ∧
    (27.26 : ℚ) ≠ (25.26 : ℚ) := by
  have h1 : retrySearch (("Please retry in 25.26s, thanks").toList)
      = some (['2', '5'], ['2', '6']) := by decide
  have h2 : capturedVal (['2', '5'], ['2', '6']) = (25.26 : ℚ) := by
    have hd : digitsToNat ['2', '5'] = 25 := by decide
    have hf : digitsToNat ['2', '6'] = 26 := by decide
    simp [capturedVal, hd, hf]
    norm_num
  refine ⟨h1, h2, ?_, by norm_num⟩
  simp only [parse_retry_delay, h1, h2]
  norm_num

theorem isPrefixOf_iff_take (l1 l2 : List Char) :
    l1.isPrefixOf l2 = true ↔ l2.take l1.length = l1 := by
  induction l1 generalizing l2 with
  | nil => simp [List.isPrefixOf]
  | cons a t ih =>
      cases l2 with
      | nil => simp [List.isPrefixOf]
      | cons b t2 =>
          simp only [List.isPrefixOf, List.take, Bool.and_eq_true, beq_iff_eq, ih,
            List.cons.injEq]
          constructor
          · rintro ⟨h1, h2⟩
            exact ⟨h1.symm, h2⟩
          · rintro ⟨h1, h2⟩
            exact ⟨h1.symm, h2⟩

/-- When the lowercased text nowhere contains `retry`, the search fails. -/
theorem retrySearch_none_of_no_retry (cs : List Char)
    (h : infixAt (['r', 'e', 't', 'r', 'y']) (cs.map Char.toLower) = false) :
    retrySearch cs = none := by
  induction cs with
  | nil => rfl
  | cons c t ih =>
      rw [List.map_cons, infixAt, Bool.or_eq_false_iff] at h
      obtain ⟨h1, h2⟩ := h
      have hra : isRetryAt (c :: t) = false := by
        unfold isRetryAt
        by_contra hcon
        rw [Bool.not_eq_false, decide_eq_true_iff] at hcon
        have : (['r', 'e', 't', 'r', 'y'] : List Char).isPrefixOf
            (Char.toLower c :: t.map Char.toLower) = true := by
          rw [isPrefixOf_iff_take]
          calc (Char.toLower c :: t.map Char.toLower).take 5
              = ((c :: t).map Char.toLower).take 5 := by simp
            _ = ((c :: t).take 5).map Char.toLower := (List.map_take Char.toLower (c :: t) 5).symm
            _ = ['r', 'e', 't', 'r', 'y'] := hcon
        rw [this] at h1
        cases h1
      rw [retrySearch, hra]
      simpa using ih h2

/-- C8 (amended): the recommended wait equals the decimal number captured by
the `retry … <number> s` pattern plus a 2-second margin when the pattern
matches, and equals the configured default otherwise; in particular a text
that nowhere mentions "retry" (case-insensitively) always yields the
default. -/
theorem C8_parse_retry_amended (sw : ℚ) (e : String) :
    (∀ df, retrySearch e.toList = some df → parse_retry_delay sw e = capturedVal df + 2) ∧
    (retrySearch e.toList = none → parse_retry_delay sw e = sw) ∧
    (infixAt (['r', 'e', 't', 'r', 'y']) (e.toList.map Char.toLower) = false →
      parse_retry_delay sw e = sw) := by
  refine ⟨?_, ?_, ?_⟩
  · intro df h
    unfold parse_retry_delay
    rw [h]
  · intro h
    unfold parse_retry_delay
    rw [h]
  · intro h
    have hn := retrySearch_none_of_no_retry e.toList h
    unfold parse_retry_delay
    rw [hn]

/-- Witness for C8 (amended): a text without "retry" yields the configured
default wait. -/
theorem C8_witness : parse_retry_delay 10 ("server exploded") = 10 :=
  (C8_parse_retry_amended 10 ("server exploded")).2.2 (by decide)

/-! ## Implementer payload validation (agent.py) -/

/-- Python `isinstance(v, str)` on a JSON value. -/
def isStr : JValue → Bool
  | JValue.str _ => true
  | _ => false

/-- Python `isinstance(payload.get(k), str)` (`None` is not a string). -/
def isStrOpt (v : Option JValue) : Bool :=
  match v with
  | some (JValue.str _) => true
  | _ => false

/-- First error produced by a per-key check, scanning keys in order. -/
def firstSome (f : String → Option String) : List String → Option String
  | [] => none
  | k :: ks =>
      match f k with
      | some e => some e
      | none => firstSome f ks

/-- The required-key loop of `_validate_implementer_payload`. -/
def requiredErr (kvs : List (String × JValue)) : Option String :=
  match ["files", "commit_message", "status_update", "todo_done", "todo_add"].find?
      (fun k => (jLookup kvs k).isNone) with
  | some k => some (("必須キーがありません: ") ++ k)
  | none => none

/-- The per-entry file checks: entry is a dict, `path` is a string that is
non-empty after stripping, `content` is a string. -/
def checkFiles : ℕ → List JValue → Option String
  | _, [] => none
  | i, item :: rest =>
      match item with
      | JValue.obj fkvs =>
          match jLookup fkvs ("path") with
          | some (JValue.str p) =>
              if pyStrip p = ("") then
                some (("files[") ++ toString i ++ ("].path が不正です"))
              else
                match jLookup fkvs ("content") with
                | some (JValue.str _) => checkFiles (i + 1) rest
                | _ => some (("files[") ++ toString i ++ ("].content は文字列である必要があります"))
          | _ => some (("files[") ++ toString i ++ ("].path が不正です"))
      | _ => some (("files[") ++ toString i ++ ("] はオブジェクトである必要があります"))

/-- The `files` block of `_validate_implementer_payload`. -/
def filesErr (kvs : List (String × JValue)) : Option String :=
  match jLookup kvs ("files") with
  | some (JValue.arr files) => checkFiles 0 files
  | _ => some ("files は配列である必要があります")

/-- The `commit_message` / `status_update` loop. -/
def strFieldsErr (kvs : List (String × JValue)) : Option String :=
  firstSome (fun k =>
      if isStrOpt (jLookup kvs k) then none
      else some (k ++ (" は文字列である必要があります")))
    ["commit_message", "status_update"]

/-- One round of the string-list loop: `payload.get(k, [])` must be a list of
strings. -/
def strListErr (kvs : List (String × JValue)) (k : String) : Option String :=
  match jLookup kvs k with
  | none => none
  | some (JValue.arr items) =>
      if items.all isStr then none
      else some (k ++ (" の要素は文字列である必要があります"))
  | some _ => some (k ++ (" は配列である必要があります"))

def listFieldsErr (kvs : List (String × JValue)) : Option String :=
  firstSome (strListErr kvs)
    ["todo_done", "todo_add", "implemented_features", "ui_elements"]

/-- The assertions loop: each entry is a dict whose `type` (default `""`) is
a string. -/
def checkAssertions : ℕ → List JValue → Option String
  | _, [] => none
  | i, a :: rest =>
      match a with
      | JValue.obj akvs =>
          match jLookup akvs ("type") with
          | none => checkAssertions (i + 1) rest
          | some (JValue.str _) => checkAssertions (i + 1) rest
          | some _ => some (("assertions[") ++ toString i ++ ("].type は文字列である必要があります"))
      | _ => some (("assertions[") ++ toString i ++ ("] はオブジェクトである必要があります"))

def assertionsErr (kvs : List (String × JValue)) : Option String :=
  match jLookup kvs ("assertions") with
  | none => none
  | some (JValue.arr items) => checkAssertions 0 items
  | some _ => some ("assertions は配列である必要があります")

/-- `Agent._validate_implementer_payload`: the checks in source order; the
first failure is returned with its reason, otherwise `(true, "")`. -/
def validate_implementer_payload (payload : JValue) : Bool × String :=
  match payload with
  | JValue.obj kvs =>
      match requiredErr kvs with
      | some r => (false, r)
      | none =>
      match filesErr kvs with
      | some r => (false, r)
      | none =>
      match strFieldsErr kvs with
      | some r => (false, r)
      | none =>
      match listFieldsErr kvs with
      | some r => (false, r)
      | none =>
      match assertionsErr kvs with
      | some r => (false, r)
      | none => (true, (""))
  | _ => (false, ("ペイロードはオブジェクトである必要があります"))

/-- Python `dict.setdefault(k, v)` (appends at the end when absent). -/
def setdefault (kvs : List (String × JValue)) (k : String) (v : JValue) :
    List (String × JValue) :=
  match jLookup kvs k with
  | some _ => kvs
  | none => kvs ++ [(k, v)]

/-- `Agent._normalize_implementer_payload`. -/
def normalize_implementer_payload (kvs : List (String × JValue)) :
    List (String × JValue) :=
  setdefault (setdefault (setdefault (setdefault (setdefault kvs
    ("thought") (JValue.str (""))) ("action_type") (JValue.str ("add_feature")))
    ("implemented_features") (JValue.arr [])) ("ui_elements") (JValue.arr []))
    ("assertions") (JValue.arr [])

/-- The `path` fields of the payload's file entries, with the writer's
defaults. -/
def filePaths (payload : JValue) : List String :=
  match payload with
  | JValue.obj kvs =>
      match jLookup kvs ("files") with
      | some (JValue.arr items) =>
          items.map (fun it =>
            match it with
            | JValue.obj fkvs => jStrD fkvs ("path") ("")
            | _ => (""))
      | _ => []
  | _ => []

/-- A payload with two file entries sharing the path `a`, all required keys
present and well-typed, and no `action_type`. -/
def c6kvs : List (String × JValue) :=
  [(("files"), JValue.arr
      [JValue.obj [(("path"), JValue.str ("a")), (("content"), JValue.str (""))],
       JValue.obj [(("path"), JValue.str ("a")), (("content"), JValue.str ("b"))]]),
   (("commit_message"), JValue.str ("feat: x")),
   (("status_update"), JValue.str ("")),
   (("todo_done"), JValue.arr []),
   (("todo_add"), JValue.arr [])]

/-- C6 counterexample: the validator accepts a payload whose file paths are
not pairwise distinct, and normalization defaults `action_type` to
`add_feature`, not to an empty value — both against the claim. -/
theorem C6_counterexample :
    (validate_implementer_payload (JValue.obj c6kvs)).1 = true ∧
    ¬ (filePaths (JValue.obj c6kvs)).Nodup ∧
    jLookup (normalize_implementer_payload c6kvs) ("action_type")
      = some (JValue.str ("add_feature")) ∧
    ("add_feature" : String) ≠ ("") := by
  refine ⟨by decide, ?_, by rfl, by decide⟩
  have : filePaths (JValue.obj c6kvs) = [("a"), ("a")] := by rfl
  rw [this]
  decide

theorem firstSome_none (f : String → Option String) (ks : List String)
    (h : firstSome f ks = none) : ∀ k ∈ ks, f k = none := by
  induction ks with
  | nil => intro k hk; cases hk
  | cons x xs ih =>
      intro k hk
      unfold firstSome at h
      cases hfx : f x with
      | some e => rw [hfx] at h; cases h
      | none =>
          rw [hfx] at h
          cases hk with
          | head => exact hfx
          | tail _ hk => exact ih h k hk

theorem checkFiles_sound (files : List JValue) :
    ∀ i : ℕ, checkFiles i files = none →
    ∀ it ∈ files, ∃ fkvs p c, it = JValue.obj fkvs ∧
      jLookup fkvs ("path") = some (JValue.str p) ∧ pyStrip p ≠ ("") ∧
      jLookup fkvs ("content") = some (JValue.str c) := by
  induction files with
  | nil => intro i _ it hit; cases hit
  | cons a rest ih =>
      intro i h it hit
      cases a with
      | obj fkvs =>
          simp only [checkFiles] at h
          cases hp : jLookup fkvs ("path") with
          | none => simp [hp] at h
          | some pv =>
              cases pv with
              | str p =>
                  simp only [hp] at h
                  by_cases hps : pyStrip p = ("")
                  · simp [hps] at h
                  · rw [if_neg hps] at h
                    cases hc : jLookup fkvs ("content") with
                    | none => simp [hc] at h
                    | some cv =>
                        cases cv with
                        | str c =>
                            simp only [hc] at h
                            cases hit with
                            | head => exact ⟨fkvs, p, c, rfl, hp, hps, hc⟩
                            | tail _ hit => exact ih (i + 1) h it hit
                        | null => simp [hc] at h
                        | bool b => simp [hc] at h
                        | num q => simp [hc] at h
                        | arr l => simp [hc] at h
                        | obj l => simp [hc] at h
              | null => simp [hp] at h
              | bool b => simp [hp] at h
              | num q => simp [hp] at h
              | arr l => simp [hp] at h
              | obj l => simp [hp] at h
      | null => simp [checkFiles] at h
      | bool b => simp [checkFiles] at h
      | num q => simp [checkFiles] at h
      | str s => simp [checkFiles] at h
      | arr l => simp [checkFiles] at h

theorem checkAssertions_sound (items : List JValue) :
    ∀ i : ℕ, checkAssertions i items = none →
    ∀ it ∈ items, ∃ akvs, it = JValue.obj akvs ∧
      (jLookup akvs ("type") = none ∨ ∃ s, jLookup akvs ("type") = some (JValue.str s)) := by
  induction items with
  | nil => intro i _ it hit; cases hit
  | cons a rest ih =>
      intro i h it hit
      cases a with
      | obj akvs =>
          simp only [checkAssertions] at h
          cases ht : jLookup akvs ("type") with
          | none =>
              simp only [ht] at h
              cases hit with
              | head => exact ⟨akvs, rfl, Or.inl ht⟩
              | tail _ hit => exact ih (i + 1) h it hit
          | some tv =>
              cases tv with
              | str s =>
                  simp only [ht] at h
                  cases hit with
                  | head => exact ⟨akvs, rfl, Or.inr ⟨s, ht⟩⟩
                  | tail _ hit => exact ih (i + 1) h it hit
              | null => simp [ht] at h
              | bool b => simp [ht] at h
              | num q => simp [ht] at h
              | arr l => simp [ht] at h
              | obj l => simp [ht] at h
      | null => simp [checkAssertions] at h
      | bool b => simp [checkAssertions] at h
      | num q => simp [checkAssertions] at h
      | str s => simp [checkAssertions] at h
      | arr l => simp [checkAssertions] at h

theorem strListErr_none (kvs : List (String × JValue)) (k : String)
    (h : strListErr kvs k = none) :
    jLookup kvs k = none ∨ ∃ items, jLookup kvs k = some (JValue.arr items) ∧
      ∀ it ∈ items, ∃ s, it = JValue.str s := by
  unfold strListErr at h
  cases hl : jLookup kvs k with
  | none => exact Or.inl rfl
  | some v =>
      cases v with
      | arr items =>
          simp only [hl] at h
          by_cases ha : items.all isStr = true
          · refine Or.inr ⟨items, rfl, ?_⟩
            intro it hit
            have hs := List.all_eq_true.mp ha it hit
            cases it with
            | str s => exact ⟨s, rfl⟩
            | null => simp [isStr] at hs
            | bool b => simp [isStr] at hs
            | num q => simp [isStr] at hs
            | arr l => simp [isStr] at hs
            | obj l => simp [isStr] at hs
          · rw [if_neg ha] at h
            cases h
      | null => simp [hl] at h
      | bool b => simp [hl] at h
      | num q => simp [hl] at h
      | str s => simp [hl] at h
      | obj l => simp [hl] at h

theorem isStrOpt_true (v : Option JValue) (h : isStrOpt v = true) :
    ∃ s, v = some (JValue.str s) := by
  cases v with
  | none => simp [isStrOpt] at h
  | some w =>
      cases w with
      | str s => exact ⟨s, rfl⟩
      | null => simp [isStrOpt] at h
      | bool b => simp [isStrOpt] at h
      | num q => simp [isStrOpt] at h
      | arr l => simp [isStrOpt] at h
      | obj l => simp [isStrOpt] at h

theorem jLookup_append (a b : List (String × JValue)) (k : String) :
    jLookup (a ++ b) k = match jLookup a k with
      | some v => some v
      | none => jLookup b k := by
  induction a with
  | nil => simp [jLookup, List.find?]
  | cons p t ih =>
      cases hpk : (p.1 == k) with
      | true =>
          simp only [List.cons_append]
          unfold jLookup
          simp only [List.find?, hpk]
      | false =>
          simp only [List.cons_append]
          unfold jLookup
          simp only [List.find?, hpk]
          exact ih

theorem jLookup_setdefault_same (kvs : List (String × JValue)) (k : String) (v : JValue) :
    jLookup (setdefault kvs k v) k = some ((jLookup kvs k).getD v) := by
  unfold setdefault
  cases h : jLookup kvs k with
  | some w => simp [h]
  | none =>
      rw [jLookup_append, h]
      simp [jLookup, List.find?]

theorem jLookup_setdefault_other (kvs : List (String × JValue)) (k : String) (v : JValue)
    (k2 : String) (h : ¬ k = k2) :
    jLookup (setdefault kvs k v) k2 = jLookup kvs k2 := by
  unfold setdefault
  cases hl : jLookup kvs k with
  | some w => rfl
  | none =>
      rw [jLookup_append]
      cases h2 : jLookup kvs k2 with
      | some w => rfl
      | none =>
          have hne : (k == k2) = false := beq_eq_false_iff_ne.mpr h
          simp [jLookup, List.find?, hne]

/-- C6 (amended): the validator accepts only payloads that are objects with
all required keys present and correctly typed, whose file entries are
objects with a string path non-empty after stripping and a string content,
and whose optional list fields are lists of strings when present — duplicate
file paths are NOT rejected; on acceptance, absent optional fields are
defaulted by normalization: `thought` to the empty string, `action_type` to
`add_feature`, and the three list fields to empty lists. -/
theorem C6_validate_amended (kvs : List (String × JValue))
    (h : (validate_implementer_payload (JValue.obj kvs)).1 = true) :
    (∃ files, jLookup kvs ("files") = some (JValue.arr files) ∧
      ∀ it ∈ files, ∃ fkvs p c, it = JValue.obj fkvs ∧
        jLookup fkvs ("path") = some (JValue.str p) ∧ pyStrip p ≠ ("") ∧
        jLookup fkvs ("content") = some (JValue.str c)) ∧
    (∃ s, jLookup kvs ("commit_message") = some (JValue.str s)) ∧
    (∃ s, jLookup kvs ("status_update") = some (JValue.str s)) ∧
    (∃ items, jLookup kvs ("todo_done") = some (JValue.arr items) ∧
      ∀ it ∈ items, ∃ s, it = JValue.str s) ∧
    (∃ items, jLookup kvs ("todo_add") = some (JValue.arr items) ∧
      ∀ it ∈ items, ∃ s, it = JValue.str s) ∧
    (jLookup kvs ("implemented_features") = none ∨
      ∃ items, jLookup kvs ("implemented_features") = some (JValue.arr items) ∧
        ∀ it ∈ items, ∃ s, it = JValue.str s) ∧
    (jLookup kvs ("ui_elements") = none ∨
      ∃ items, jLookup kvs ("ui_elements") = some (JValue.arr items) ∧
        ∀ it ∈ items, ∃ s, it = JValue.str s) ∧
    (jLookup kvs ("assertions") = none ∨
      ∃ items, jLookup kvs ("assertions") = some (JValue.arr items) ∧
        ∀ it ∈ items, ∃ akvs, it = JValue.obj akvs ∧
          (jLookup akvs ("type") = none ∨
            ∃ s, jLookup akvs ("type") = some (JValue.str s))) ∧
    (jLookup kvs ("thought") = none →
      jLookup (normalize_implementer_payload kvs) ("thought")
        = some (JValue.str (""))) ∧
    (jLookup kvs ("action_type") = none →
      jLookup (normalize_implementer_payload kvs) ("action_type")
        = some (JValue.str ("add_feature"))) ∧
    (jLookup kvs ("implemented_features") = none →
      jLookup (normalize_implementer_payload kvs) ("implemented_features")
        = some (JValue.arr [])) ∧
    (jLookup kvs ("ui_elements") = none →
      jLookup (normalize_implementer_payload kvs) ("ui_elements")
        = some (JValue.arr [])) ∧
    (jLookup kvs ("assertions") = none →
      jLookup (normalize_implementer_payload kvs) ("assertions")
        = some (JValue.arr [])) := by
  unfold validate_implementer_payload at h
  cases hreq : requiredErr kvs with
  | some r => simp [hreq] at h
  | none =>
  simp only [hreq] at h
  cases hfil : filesErr kvs with
  | some r => simp [hfil] at h
  | none =>
  simp only [hfil] at h
  cases hstr : strFieldsErr kvs with
  | some r => simp [hstr] at h
  | none =>
  simp only [hstr] at h
  cases hlst : listFieldsErr kvs with
  | some r => simp [hlst] at h
  | none =>
  simp only [hlst] at h
  cases hast : assertionsErr kvs with
  | some r => simp [hast] at h
  | none =>
  -- required keys are present
  have hpres : ∀ k ∈ (["files", "commit_message", "status_update",
      "todo_done", "todo_add"] : List String), ¬ (jLookup kvs k).isNone = true := by
    unfold requiredErr at hreq
    cases hf : (["files", "commit_message", "status_update", "todo_done",
        "todo_add"] : List String).find? (fun k => (jLookup kvs k).isNone) with
    | some k => rw [hf] at hreq; cases hreq
    | none =>
        intro k hk
        exact by simpa using List.find?_eq_none.mp hf k hk
  -- string fields
  have hstr2 := firstSome_none _ _ hstr
  have hcm : isStrOpt (jLookup kvs ("commit_message")) = true := by
    have := hstr2 ("commit_message") (by simp)
    by_contra hcon
    rw [Bool.not_eq_true] at hcon
    simp [hcon] at this
  have hsu : isStrOpt (jLookup kvs ("status_update")) = true := by
    have := hstr2 ("status_update") (by simp)
    by_contra hcon
    rw [Bool.not_eq_true] at hcon
    simp [hcon] at this
  -- list fields
  have hlst2 := firstSome_none _ _ hlst
  have htd := strListErr_none kvs ("todo_done") (hlst2 ("todo_done") (by simp))
  have hta := strListErr_none kvs ("todo_add") (hlst2 ("todo_add") (by simp))
  have hif := strListErr_none kvs ("implemented_features")
    (hlst2 ("implemented_features") (by simp))
  have hui := strListErr_none kvs ("ui_elements") (hlst2 ("ui_elements") (by simp))
  refine ⟨?_, isStrOpt_true _ hcm, isStrOpt_true _ hsu, ?_, ?_, hif, hui, ?_, ?_, ?_,
    ?_, ?_, ?_⟩
  · -- files
    unfold filesErr at hfil
    cases hfl : jLookup kvs ("files") with
    | none => simp [hfl] at hfil
    | some v =>
        cases v with
        | arr files =>
            simp only [hfl] at hfil
            exact ⟨files, rfl, checkFiles_sound files 0 hfil⟩
        | null => simp [hfl] at hfil
        | bool b => simp [hfl] at hfil
        | num q => simp [hfl] at hfil
        | str s => simp [hfl] at hfil
        | obj l => simp [hfl] at hfil
  · rcases htd with hn | hgood
    · exact absurd (by simp [hn] : (jLookup kvs ("todo_done")).isNone = true)
        (hpres ("todo_done") (by simp))
    · exact hgood
  · rcases hta with hn | hgood
    · exact absurd (by simp [hn] : (jLookup kvs ("todo_add")).isNone = true)
        (hpres ("todo_add") (by simp))
    · exact hgood
  · -- assertions
    unfold assertionsErr at hast
    cases hal : jLookup kvs ("assertions") with
    | none => exact Or.inl rfl
    | some v =>
        cases v with
        | arr items =>
            simp only [hal] at hast
            exact Or.inr ⟨items, rfl, checkAssertions_sound items 0 hast⟩
        | null => simp [hal] at hast
        | bool b => simp [hal] at hast
        | num q => simp [hal] at hast
        | str s => simp [hal] at hast
        | obj l => simp [hal] at hast
  · intro hth
    unfold normalize_implementer_payload
    rw [jLookup_setdefault_other _ _ _ _ (by decide),
        jLookup_setdefault_other _ _ _ _ (by decide),
        jLookup_setdefault_other _ _ _ _ (by decide),
        jLookup_setdefault_other _ _ _ _ (by decide),
        jLookup_setdefault_same, hth]
    rfl
  · intro hat
    unfold normalize_implementer_payload
    rw [jLookup_setdefault_other _ _ _ _ (by decide),
        jLookup_setdefault_other _ _ _ _ (by decide),
        jLookup_setdefault_other _ _ _ _ (by decide),
        jLookup_setdefault_same]
    rw [jLookup_setdefault_other _ _ _ _ (by decide), hat]
    rfl
  · intro hifn
    unfold normalize_implementer_payload
    rw [jLookup_setdefault_other _ _ _ _ (by decide),
        jLookup_setdefault_other _ _ _ _ (by decide),
        jLookup_setdefault_same]
    rw [jLookup_setdefault_other _ _ _ _ (by decide),
        jLookup_setdefault_other _ _ _ _ (by decide), hifn]
    rfl
  · intro huin
    unfold normalize_implementer_payload
    rw [jLookup_setdefault_other _ _ _ _ (by decide),
        jLookup_setdefault_same]
    rw [jLookup_setdefault_other _ _ _ _ (by decide),
        jLookup_setdefault_other _ _ _ _ (by decide),
        jLookup_setdefault_other _ _ _ _ (by decide), huin]
    rfl
  · intro has
    unfold normalize_implementer_payload
    rw [jLookup_setdefault_same]
    rw [jLookup_setdefault_other _ _ _ _ (by decide),
        jLookup_setdefault_other _ _ _ _ (by decide),
        jLookup_setdefault_other _ _ _ _ (by decide),
        jLookup_setdefault_other _ _ _ _ (by decide), has]
    rfl

/-- Witness for C6 (amended) at a concrete accepted payload. -/
theorem C6_witness :
    (validate_implementer_payload (JValue.obj
      [(("files"), JValue.arr
          [JValue.obj [(("path"), JValue.str ("index.html")),
                       (("content"), JValue.str ("hi"))]]),
       (("commit_message"), JValue.str ("feat: x")),
       (("status_update"), JValue.str ("plan")),
       (("todo_done"), JValue.arr []),
       (("todo_add"), JValue.arr [JValue.str ("X")])])).1 = true ∧
    ∃ s, jLookup
      [(("files"), JValue.arr
          [JValue.obj [(("path"), JValue.str ("index.html")),
                       (("content"), JValue.str ("hi"))]]),
       (("commit_message"), JValue.str ("feat: x")),
       (("status_update"), JValue.str ("plan")),
       (("todo_done"), JValue.arr []),
       (("todo_add"), JValue.arr [JValue.str ("X")])] ("commit_message")
      = some (JValue.str s) :=
  ⟨by decide, (C6_validate_amended _ (by decide)).2.1⟩

/-! ## Structured response extraction (agent.py: _extract_json_candidate,
_build_retry_prompt, ask_json) -/

/-- The backtick, left-brace and right-brace characters (spelled via their
code points). -/
def backtickChar : Char := Char.ofNat 96

def lbrace : Char := Char.ofNat 123

def rbrace : Char := Char.ofNat 125

def fenceChars : List Char := [backtickChar, backtickChar, backtickChar]

/-- Whether a closing fence follows: `\s*` then three backticks. -/
def fenceCloseAfter (cs : List Char) : Bool :=
  fenceChars.isPrefixOf (cs.dropWhile Char.isWhitespace)

/-- Lazy body of the fenced group `(\{[\s\S]*?\})`: the group ends at the
first right brace that is followed by a closing fence. -/
def findGroupEnd : List Char → List Char → Option (List Char)
  | _, [] => none
  | acc, c :: t =>
      if c = rbrace && fenceCloseAfter t then some acc.reverse
      else findGroupEnd (c :: acc) t

/-- The optional `(?:json)?` tag (IGNORECASE). -/
def jsonTagAt (cs : List Char) : Bool :=
  (cs.take 4).map Char.toLower = ['j', 's', 'o', 'n']

/-- One attempt to match the fenced-block pattern
`\x60\x60\x60(?:json)?\s*(\{[\s\S]*?\})\s*\x60\x60\x60` at the head of the
text, returning the captured group. -/
def fenceAt (cs : List Char) : Option String :=
  if fenceChars.isPrefixOf cs then
    let rest := cs.drop 3
    let rest2 := if jsonTagAt rest then rest.drop 4 else rest
    let rest3 := rest2.dropWhile Char.isWhitespace
    match rest3 with
    | c :: t =>
        if c = lbrace then
          match findGroupEnd [] t with
          | some body => some (String.mk (lbrace :: (body ++ [rbrace])))
          | none => none
        else none
    | [] => none
  else none

/-- `re.findall(...)[0]`: the leftmost fenced-block match. -/
def findFenced : List Char → Option String
  | [] => none
  | c :: t =>
      match fenceAt (c :: t) with
      | some g => some g
      | none => findFenced t

/-- Python `text.find(ch)` as an index option. -/
def findIdxOfChar (cs : List Char) (ch : Char) : Option ℕ :=
  cs.findIdx? (fun c => c = ch)

/-- The brace-span fallback of `_extract_json_candidate`:
`text[text.find("\x7b") : text.rfind("\x7d") + 1].strip()`, empty when the
braces are missing or inverted. -/
def braceSpan (text : String) : String :=
  let cs := text.toList
  match findIdxOfChar cs lbrace, findIdxOfChar cs.reverse rbrace with
  | some start, some rj =>
      let e := cs.length - 1 - rj
      if e ≤ start then ("")
      else pyStrip (String.mk ((cs.drop start).take (e - start + 1)))
  | _, _ => ("")

/-- `Agent._extract_json_candidate`: strip; first fenced block if any, else
the first-left-brace-to-last-right-brace span, else empty. -/
def extract_json_candidate (raw : String) : String :=
  let text := pyStrip raw
  if text = ("") then ("")
  else
    match findFenced text.toList with
    | some g => pyStrip g
    | none => braceSpan text

/-- `Agent._build_retry_prompt`. -/
def build_retry_prompt (original_prompt reason : String) : String :=
  original_prompt ++ ("\n\n前回の出力が不正でした: ") ++ reason
    ++ ("\n再試行の要件:\n- JSONオブジェクト1つだけを返す\n- マークダウンのコードブロック不要\n- JSON前後に説明文を入れない\n")

def JSON_SUFFIX : String :=
  "\n\nJSONオブジェクト1つだけを返してください。マークダウンのコードブロック不要。説明文不要。"

/-- The retry loop of `Agent.ask_json`, instrumented with the number of
backend calls made.  `parse` is the `json.loads` oracle (`none` models a
`JSONDecodeError`); `responses` scripts the texts returned by `ask`. -/
def ask_json_loop (role : String) (parse : String → Option JValue) (prompt : String) :
    ℕ → String → List String → ℕ → (List (String × JValue)) × ℕ
  | 0, _, _, used => ([], used)
  | _ + 1, _, [], used => ([], used)
  | n + 1, json_prompt, raw :: rest, used =>
      let _ := json_prompt
      let candidate := extract_json_candidate raw
      if candidate = ("") then
        ask_json_loop role parse prompt n
          (build_retry_prompt prompt ("JSONオブジェクトの抽出に失敗")) rest (used + 1)
      else
        match parse candidate with
        | none =>
            ask_json_loop role parse prompt n
              (build_retry_prompt prompt ("JSON構文エラー")) rest (used + 1)
        | some parsed =>
            if role = ("implementer") then
              match parsed with
              | JValue.obj kvs =>
                  if (validate_implementer_payload (JValue.obj kvs)).1 then
                    (normalize_implementer_payload kvs, used + 1)
                  else
                    ask_json_loop role parse prompt n
                      (build_retry_prompt prompt
                        (("スキーマエラー: ")
                          ++ (validate_implementer_payload (JValue.obj kvs)).2))
                      rest (used + 1)
              | other =>
                  ask_json_loop role parse prompt n
                    (build_retry_prompt prompt
                      (("スキーマエラー: ") ++ (validate_implementer_payload other).2))
                    rest (used + 1)
            else
              match parsed with
              | JValue.obj kvs => (kvs, used + 1)
              | _ =>
                  ask_json_loop role parse prompt n
                    (build_retry_prompt prompt
                      ("トップレベルはJSONオブジェクトである必要があります")) rest (used + 1)

/-- `Agent.ask_json`: at most `json_max_retries` rounds, then the explicit
empty payload. -/
def ask_json (json_max_retries : ℕ) (role : String) (parse : String → Option JValue)
    (prompt : String) (responses : List String) : (List (String × JValue)) × ℕ :=
  ask_json_loop role parse prompt json_max_retries (prompt ++ JSON_SUFFIX) responses 0

theorem ask_json_loop_sound (role : String) (parse : String → Option JValue)
    (prompt : String) :
    ∀ (n : ℕ) (jp : String) (resp : List String) (used : ℕ),
      (ask_json_loop role parse prompt n jp resp used).2 ≤ used + n ∧
      ((ask_json_loop role parse prompt n jp resp used).1 = [] ∨
        (role = ("implementer") → ∃ kvs,
          (validate_implementer_payload (JValue.obj kvs)).1 = true ∧
          (ask_json_loop role parse prompt n jp resp used).1
            = normalize_implementer_payload kvs)) := by
  intro n
  induction n with
  | zero =>
      intro jp resp used
      exact ⟨by simp [ask_json_loop], Or.inl rfl⟩
  | succ n ih =>
      intro jp resp used
      cases resp with
      | nil =>
          refine ⟨by simp [ask_json_loop], Or.inl (by simp [ask_json_loop])⟩
      | cons raw rest =>
          by_cases hc : extract_json_candidate raw = ("")
          · have heq : ask_json_loop role parse prompt (n + 1) jp (raw :: rest) used
                = ask_json_loop role parse prompt n
                    (build_retry_prompt prompt ("JSONオブジェクトの抽出に失敗")) rest
                    (used + 1) := by
              simp [ask_json_loop, hc]
            rw [heq]
            exact ⟨le_trans (ih _ rest (used + 1)).1 (by omega),
              (ih _ rest (used + 1)).2⟩
          · cases hp : parse (extract_json_candidate raw) with
            | none =>
                have heq : ask_json_loop role parse prompt (n + 1) jp (raw :: rest) used
                    = ask_json_loop role parse prompt n
                        (build_retry_prompt prompt ("JSON構文エラー")) rest (used + 1) := by
                  simp [ask_json_loop, hc, hp]
                rw [heq]
                exact ⟨le_trans (ih _ rest (used + 1)).1 (by omega),
                  (ih _ rest (used + 1)).2⟩
            | some parsed =>
                by_cases hrole : role = ("implementer")
                · cases parsed with
                  | obj kvs =>
                      by_cases hv : (validate_implementer_payload (JValue.obj kvs)).1 = true
                      · have heq : ask_json_loop role parse prompt (n + 1) jp (raw :: rest) used
                            = (normalize_implementer_payload kvs, used + 1) := by
                          simp [ask_json_loop, hc, hp, hrole, hv]
                        rw [heq]
                        exact ⟨by omega, Or.inr (fun _ => ⟨kvs, hv, rfl⟩)⟩
                      · have heq : ask_json_loop role parse prompt (n + 1) jp (raw :: rest) used
                            = ask_json_loop role parse prompt n
                                (build_retry_prompt prompt (("スキーマエラー: ")
                                  ++ (validate_implementer_payload (JValue.obj kvs)).2))
                                rest (used + 1) := by
                          simp [ask_json_loop, hc, hp, hrole, hv]
                        rw [heq]
                        exact ⟨le_trans (ih _ rest (used + 1)).1 (by omega),
                          (ih _ rest (used + 1)).2⟩
                  | null =>
                      have heq : ask_json_loop role parse prompt (n + 1) jp (raw :: rest) used
                          = ask_json_loop role parse prompt n
                              (build_retry_prompt prompt (("スキーマエラー: ")
                                ++ (validate_implementer_payload JValue.null).2))
                              rest (used + 1) := by
                        simp [ask_json_loop, hc, hp, hrole]
                      rw [heq]
                      exact ⟨le_trans (ih _ rest (used + 1)).1 (by omega),
                        (ih _ rest (used + 1)).2⟩
                  | bool b =>
                      have heq : ask_json_loop role parse prompt (n + 1) jp (raw :: rest) used
                          = ask_json_loop role parse prompt n
                              (build_retry_prompt prompt (("スキーマエラー: ")
                                ++ (validate_implementer_payload (JValue.bool b)).2))
                              rest (used + 1) := by
                        simp [ask_json_loop, hc, hp, hrole]
                      rw [heq]
                      exact ⟨le_trans (ih _ rest (used + 1)).1 (by omega),
                        (ih _ rest (used + 1)).2⟩
                  | num q =>
                      have heq : ask_json_loop role parse prompt (n + 1) jp (raw :: rest) used
                          = ask_json_loop role parse prompt n
                              (build_retry_prompt prompt (("スキーマエラー: ")
                                ++ (validate_implementer_payload (JValue.num q)).2))
                              rest (used + 1) := by
                        simp [ask_json_loop, hc, hp, hrole]
                      rw [heq]
                      exact ⟨le_trans (ih _ rest (used + 1)).1 (by omega),
                        (ih _ rest (used + 1)).2⟩
                  | str s =>
                      have heq : ask_json_loop role parse prompt (n + 1) jp (raw :: rest) used
                          = ask_json_loop role parse prompt n
                              (build_retry_prompt prompt (("スキーマエラー: ")
                                ++ (validate_implementer_payload (JValue.str s)).2))
                              rest (used + 1) := by
                        simp [ask_json_loop, hc, hp, hrole]
                      rw [heq]
                      exact ⟨le_trans (ih _ rest (used + 1)).1 (by omega),
                        (ih _ rest (used + 1)).2⟩
                  | arr l =>
                      have heq : ask_json_loop role parse prompt (n + 1) jp (raw :: rest) used
                          = ask_json_loop role parse prompt n
                              (build_retry_prompt prompt (("スキーマエラー: ")
                                ++ (validate_implementer_payload (JValue.arr l)).2))
                              rest (used + 1) := by
                        simp [ask_json_loop, hc, hp, hrole]
                      rw [heq]
                      exact ⟨le_trans (ih _ rest (used + 1)).1 (by omega),
                        (ih _ rest (used + 1)).2⟩
                · cases parsed with
                  | obj kvs =>
                      have heq : ask_json_loop role parse prompt (n + 1) jp (raw :: rest) used
                          = (kvs, used + 1) := by
                        simp [ask_json_loop, hc, hp, hrole]
                      rw [heq]
                      exact ⟨by omega, Or.inr (fun hr => absurd hr hrole)⟩
                  | null =>
                      have heq : ask_json_loop role parse prompt (n + 1) jp (raw :: rest) used
                          = ask_json_loop role parse prompt n
                              (build_retry_prompt prompt
                                ("トップレベルはJSONオブジェクトである必要があります"))
                              rest (used + 1) := by
                        simp [ask_json_loop, hc, hp, hrole]
                      rw [heq]
                      exact ⟨le_trans (ih _ rest (used + 1)).1 (by omega),
                        (ih _ rest (used + 1)).2⟩
                  | bool b =>
                      have heq : ask_json_loop role parse prompt (n + 1) jp (raw :: rest) used
                          = ask_json_loop role parse prompt n
                              (build_retry_prompt prompt
                                ("トップレベルはJSONオブジェクトである必要があります"))
                              rest (used + 1) := by
                        simp [ask_json_loop, hc, hp, hrole]
                      rw [heq]
                      exact ⟨le_trans (ih _ rest (used + 1)).1 (by omega),
                        (ih _ rest (used + 1)).2⟩
                  | num q =>
                      have heq : ask_json_loop role parse prompt (n + 1) jp (raw :: rest) used
                          = ask_json_loop role parse prompt n
                              (build_retry_prompt prompt
                                ("トップレベルはJSONオブジェクトである必要があります"))
                              rest (used + 1) := by
                        simp [ask_json_loop, hc, hp, hrole]
                      rw [heq]
                      exact ⟨le_trans (ih _ rest (used + 1)).1 (by omega),
                        (ih _ rest (used + 1)).2⟩
                  | str s =>
                      have heq : ask_json_loop role parse prompt (n + 1) jp (raw :: rest) used
                          = ask_json_loop role parse prompt n
                              (build_retry_prompt prompt
                                ("トップレベルはJSONオブジェクトである必要があります"))
                              rest (used + 1) := by
                        simp [ask_json_loop, hc, hp, hrole]
                      rw [heq]
                      exact ⟨le_trans (ih _ rest (used + 1)).1 (by omega),
                        (ih _ rest (used + 1)).2⟩
                  | arr l =>
                      have heq : ask_json_loop role parse prompt (n + 1) jp (raw :: rest) used
                          = ask_json_loop role parse prompt n
                              (build_retry_prompt prompt
                                ("トップレベルはJSONオブジェクトである必要があります"))
                              rest (used + 1) := by
                        simp [ask_json_loop, hc, hp, hrole]
                      rw [heq]
                      exact ⟨le_trans (ih _ rest (used + 1)).1 (by omega),
                        (ih _ rest (used + 1)).2⟩

/-- C5: `ask_json` is total over any scripted sequence of backend texts (no
malformed output makes it throw), makes at most the configured number of
rounds, and returns either the explicit empty payload or — for the
implementer role — a payload that passed validation, normalized. -/
theorem C5_ask_json_sound (json_max_retries : ℕ) (role : String)
    (parse : String → Option JValue) (prompt : String) (responses : List String) :
    (ask_json json_max_retries role parse prompt responses).2 ≤ json_max_retries ∧
    ((ask_json json_max_retries role parse prompt responses).1 = [] ∨
      (role = ("implementer") → ∃ kvs,
        (validate_implementer_payload (JValue.obj kvs)).1 = true ∧
        (ask_json json_max_retries role parse prompt responses).1
          = normalize_implementer_payload kvs)) := by
  have h := ask_json_loop_sound role parse prompt json_max_retries
    (prompt ++ JSON_SUFFIX) responses 0
  exact ⟨by simpa using h.1, h.2⟩

/-- Witness for C5 at a concrete run: two malformed responses under the
implementer role exhaust the two configured rounds and yield the empty
payload. -/
theorem C5_witness :
    (ask_json 2 ("implementer") (fun _ => none) ("p") [("junk"), ("junk")]).2 ≤ 2 ∧
    ((ask_json 2 ("implementer") (fun _ => none) ("p") [("junk"), ("junk")]).1 = [] ∨
      (("implementer" : String) = ("implementer") → ∃ kvs,
        (validate_implementer_payload (JValue.obj kvs)).1 = true ∧
        (ask_json 2 ("implementer") (fun _ => none) ("p") [("junk"), ("junk")]).1
          = normalize_implementer_payload kvs)) :=
  C5_ask_json_sound 2 ("implementer") (fun _ => none) ("p") [("junk"), ("junk")]

/-! ## Request dispatcher (agent.py: ask) -/

def strLower (s : String) : String :=
  String.mk (s.toList.map Char.toLower)

/-- The rate-limit classification in `Agent.ask`:
`"quota" in e or "rate" in e or "429" in e or "exhausted" in e` on the
lowercased error text. -/
def isRateErr (e : String) : Bool :=
  strContains (strLower e) ("quota") || strContains (strLower e) ("rate")
    || strContains (strLower e) ("429") || strContains (strLower e) ("exhausted")

/-- The permanently-unavailable classification:
`"not found" in e or "404" in e or "is not supported" in e`. -/
def isNotFoundErr (e : String) : Bool :=
  strContains (strLower e) ("not found") || strContains (strLower e) ("404")
    || strContains (strLower e) ("is not supported")

structure AskState where
  cooldown : Cooldown
  current : String
  attempts : ℕ

inductive AskEvent where
  | success (text : String)
  | failure (err : String)
deriving DecidableEq

inductive StepResult where
  | done (text : String)
  | cont (s : AskState)
  | raised (err : String)

def EMPTY_TEXT_ERR : String := "レスポンスのテキストが空でした"

/-- The `except` block of `Agent.ask`: classify the failure text; a
rate-limit signal registers `now + parse_retry_delay` as the cooldown,
re-picks the model, and resets the non-rate attempt counter; a
not-found signal registers a year-long cooldown and re-picks, keeping the
counter; anything else consumes one unit of the `max_retries` budget and
re-raises on exhaustion.  (`pick_best` on an empty model list models the
`ValueError` Python's `min` would raise.) -/
def ask_on_error (models : List String) (switch_wait : ℚ) (max_retries : ℕ)
    (now : ℚ) (st : AskState) (e : String) : StepResult :=
  if isRateErr e then
    let wait := parse_retry_delay switch_wait e
    let cd2 : Cooldown := fun n => if n = st.current then now + wait else st.cooldown n
    match pick_best models cd2 now with
    | some m => StepResult.cont ⟨cd2, m.1, 0⟩
    | none => StepResult.raised ("min() arg is an empty sequence")
  else if isNotFoundErr e then
    let cd2 : Cooldown := fun n => if n = st.current then now + 86400 * 365 else st.cooldown n
    match pick_best models cd2 now with
    | some m => StepResult.cont ⟨cd2, m.1, st.attempts⟩
    | none => StepResult.raised ("min() arg is an empty sequence")
  else
    if st.attempts + 1 < max_retries then
      StepResult.cont ⟨st.cooldown, st.current, st.attempts + 1⟩
    else StepResult.raised e

/-- One turn of the `while True` loop in `Agent.ask`: a successful call with
non-empty text returns it, empty text raises a `ValueError` that the
`except` block classifies as a generic failure. -/
def ask_step (models : List String) (switch_wait : ℚ) (max_retries : ℕ)
    (now : ℚ) (st : AskState) (ev : AskEvent) : StepResult :=
  match ev with
  | AskEvent.success t =>
      if t = ("") then ask_on_error models switch_wait max_retries now st EMPTY_TEXT_ERR
      else StepResult.done t
  | AskEvent.failure e => ask_on_error models switch_wait max_retries now st e

inductive AskOutcome where
  | done (text : String)
  | raised (err : String)
  | pending (s : AskState)

/-- `Agent.ask` over a script of timestamped backend outcomes. -/
def ask_run (models : List String) (switch_wait : ℚ) (max_retries : ℕ) :
    AskState → List (ℚ × AskEvent) → AskOutcome
  | st, [] => AskOutcome.pending st
  | st, (now, ev) :: rest =>
      match ask_step models switch_wait max_retries now st ev with
      | StepResult.done t => AskOutcome.done t
      | StepResult.raised e => AskOutcome.raised e
      | StepResult.cont s2 => ask_run models switch_wait max_retries s2 rest

theorem find?_isSome_of_exists {α : Type} (p : α → Bool) (l : List α)
    (hx : ∃ x ∈ l, p x = true) : ∃ a, l.find? p = some a ∧ p a = true := by
  induction l with
  | nil => simp at hx
  | cons y ys ih =>
      cases hpy : p y with
      | true => exact ⟨y, by simp [List.find?, hpy], hpy⟩
      | false =>
          obtain ⟨x, hxm, hxp⟩ := hx
          have hxys : x ∈ ys := by
            cases hxm with
            | head => rw [hxp] at hpy; cases hpy
            | tail _ h => exact h
          obtain ⟨a, ha, hpa⟩ := ih ⟨x, hxys, hxp⟩
          exact ⟨a, by simp only [List.find?, hpy]; exact ha, hpa⟩

theorem pick_best_some (models : List String) (cd : Cooldown) (now : ℚ)
    (hne : models ≠ []) : ∃ m, pick_best models cd now = some m := by
  cases hfe : firstEligible models cd now with
  | some n => exact ⟨(n, 0), by simp [pick_best, hfe]⟩
  | none =>
      obtain ⟨m, hm, _, _⟩ := earliestModel_spec models cd hne
      exact ⟨(m, max 0 (cd m - now) + 1), by simp [pick_best, hfe, hm]⟩

theorem parse_retry_delay_pos (sw : ℚ) (e : String) (hsw : 0 < sw) :
    0 < parse_retry_delay sw e := by
  unfold parse_retry_delay
  cases h : retrySearch e.toList with
  | none => exact hsw
  | some df =>
      have h1 : (0 : ℚ) ≤ (digitsToNat df.1 : ℚ) := by positivity
      have h2 : (0 : ℚ) ≤ (digitsToNat df.2 : ℚ) / (10 : ℚ) ^ df.2.length := by positivity
      unfold capturedVal
      linarith

theorem ask_run_rate_no_raise (models : List String) (sw : ℚ) (mr : ℕ)
    (hne : models ≠ []) :
    ∀ script : List (ℚ × AskEvent),
      (∀ p ∈ script, ∃ e2, p.2 = AskEvent.failure e2 ∧ isRateErr e2 = true) →
      ∀ (st : AskState) (err : String),
        ask_run models sw mr st script ≠ AskOutcome.raised err := by
  intro script
  induction script with
  | nil => intro _ st err h; simp [ask_run] at h
  | cons p rest ih =>
      intro hall st err
      obtain ⟨now2, ev⟩ := p
      obtain ⟨e2, hev, hrate⟩ := hall (now2, ev) (by simp)
      simp only at hev
      subst hev
      have hw : 0 < parse_retry_delay sw e2 ∨ True := Or.inr trivial
      obtain ⟨m, hm⟩ := pick_best_some models
        (fun n => if n = st.current then now2 + parse_retry_delay sw e2 else st.cooldown n)
        now2 hne
      intro hcon
      rw [ask_run, ask_step] at hcon
      simp only [ask_on_error, hrate, if_true, hm] at hcon
      exact ih (fun q hq => hall q (by simp [hq])) _ err hcon

/-- C4: a rate-limit-classified failure puts the failing backend on cooldown
(until `now` plus the recommended wait), resets the generic retry counter to
zero (no retry budget consumed), and routes the next attempt to the
lowest-rank eligible backend — a different backend whenever any other
eligible one exists; and a script consisting solely of rate-limit failures
never raises, however long. -/
theorem C4_rate_rotation (models : List String) (sw : ℚ) (mr : ℕ) (now : ℚ)
    (st : AskState) (e : String)
    (hrate : isRateErr e = true) (hsw : 0 < sw) (hne : models ≠ []) :
    (∃ st2, ask_step models sw mr now st (AskEvent.failure e) = StepResult.cont st2 ∧
      st2.attempts = 0 ∧
      st2.cooldown st.current = now + parse_retry_delay sw e ∧
      now < st2.cooldown st.current ∧
      ((∃ m ∈ models, m ≠ st.current ∧ st.cooldown m ≤ now) →
        st2.current ≠ st.current ∧ st2.cooldown st2.current ≤ now)) ∧
    (∀ script : List (ℚ × AskEvent),
      (∀ p ∈ script, ∃ e2, p.2 = AskEvent.failure e2 ∧ isRateErr e2 = true) →
      ∀ err, ask_run models sw mr st script ≠ AskOutcome.raised err) := by
  constructor
  · obtain ⟨m, hm⟩ := pick_best_some models
      (fun n => if n = st.current then now + parse_retry_delay sw e else st.cooldown n)
      now hne
    refine ⟨⟨fun n => if n = st.current then now + parse_retry_delay sw e
        else st.cooldown n, m.1, 0⟩, ?_, rfl, by simp, ?_, ?_⟩
    · rw [ask_step]
      simp only [ask_on_error, hrate, if_true, hm]
    · have hpd := parse_retry_delay_pos sw e hsw
      simp only [if_pos rfl]
      simp
      linarith
    · rintro ⟨m2, hm2mem, hm2ne, hm2el⟩
      set cd2 : Cooldown := fun n =>
        if n = st.current then now + parse_retry_delay sw e else st.cooldown n with hcd2
      have hel2 : cd2 m2 ≤ now := by
        rw [hcd2]
        simp only [if_neg hm2ne]
        exact hm2el
      obtain ⟨a, ha, hpa⟩ := find?_isSome_of_exists (fun n => decide (cd2 n ≤ now)) models
        ⟨m2, hm2mem, by simpa using hel2⟩
      have hfe : firstEligible models cd2 now = some a := ha
      have hma : m = (a, 0) := by
        have : pick_best models cd2 now = some (a, 0) := by simp [pick_best, hfe]
        rw [hm] at this
        exact Option.some.inj this.symm |>.symm
      have hael : cd2 a ≤ now := of_decide_eq_true hpa
      have hane : a ≠ st.current := by
        intro hcon
        rw [hcon, hcd2] at hael
        simp at hael
        have := parse_retry_delay_pos sw e hsw
        linarith
      constructor
      · simpa [hma] using hane
      · simpa [hma] using hael
  · exact fun script hall err =>
      ask_run_rate_no_raise models sw mr hne script hall st err

/-- Witness for C4 at a concrete state: two available backends, current A,
a quota failure with positive default wait. -/
theorem C4_witness :
    (∃ st2, ask_step ["A", "B"] 10 3 0
        ⟨fun _ => (0 : ℚ), ("A"), 2⟩ (AskEvent.failure ("quota exceeded"))
        = StepResult.cont st2 ∧
      st2.attempts = 0 ∧
      st2.cooldown ("A") = 0 + parse_retry_delay 10 ("quota exceeded") ∧
      (0 : ℚ) < st2.cooldown ("A") ∧
      ((∃ m ∈ (["A", "B"] : List String), m ≠ ("A") ∧ (fun _ => (0 : ℚ)) m ≤ 0) →
        st2.current ≠ ("A") ∧ st2.cooldown st2.current ≤ 0)) ∧
    (∀ script : List (ℚ × AskEvent),
      (∀ p ∈ script, ∃ e2, p.2 = AskEvent.failure e2 ∧ isRateErr e2 = true) →
      ∀ err, ask_run ["A", "B"] 10 3 ⟨fun _ => (0 : ℚ), ("A"), 2⟩ script
        ≠ AskOutcome.raised err) :=
  C4_rate_rotation ["A", "B"] 10 3 0 ⟨fun _ => (0 : ℚ), ("A"), 2⟩ ("quota exceeded")
    (by decide) (by norm_num) (by simp)

/-! ## Interleaving generic failures with rate-limit signals (C10) -/

def genericFailEvent : ℚ × AskEvent := (0, AskEvent.failure ("boom"))

def rateFailEvent : ℚ × AskEvent := (0, AskEvent.failure ("429"))

/-- One block: use up all but one unit of the generic budget, then hit a
rate limit (which resets the counter). -/
def rateBlock (mr : ℕ) : List (ℚ × AskEvent) :=
  List.replicate (mr - 1) genericFailEvent ++ [rateFailEvent]

def rateScript (mr : ℕ) : ℕ → List (ℚ × AskEvent)
  | 0 => []
  | k + 1 => rateBlock mr ++ rateScript mr k

theorem boom_generic : isRateErr ("boom") = false ∧ isNotFoundErr ("boom") = false := by
  constructor <;> decide

theorem err429_rate : isRateErr ("429") = true := by decide

/-- Running through `j` generic failures, all within budget, only advances
the attempt counter. -/
theorem gen_steps (models : List String) (sw : ℚ) (mr : ℕ) :
    ∀ (j : ℕ) (st : AskState) (rest : List (ℚ × AskEvent)),
      st.attempts + j < mr →
      ask_run models sw mr st (List.replicate j genericFailEvent ++ rest)
        = ask_run models sw mr ⟨st.cooldown, st.current, st.attempts + j⟩ rest := by
  intro j
  induction j with
  | zero =>
      intro st rest _
      simp [List.replicate]
  | succ j ih =>
      intro st rest hlt
      have hstep : ask_step models sw mr 0 st (AskEvent.failure ("boom"))
          = StepResult.cont ⟨st.cooldown, st.current, st.attempts + 1⟩ := by
        rw [ask_step]
        unfold ask_on_error
        rw [boom_generic.1, boom_generic.2]
        simp only [Bool.false_eq_true, if_false]
        rw [if_pos (by omega : st.attempts + 1 < mr)]
      calc ask_run models sw mr st (List.replicate (j + 1) genericFailEvent ++ rest)
          = ask_run models sw mr st
              (genericFailEvent :: (List.replicate j genericFailEvent ++ rest)) := by
            simp [List.replicate_succ]
        _ = ask_run models sw mr ⟨st.cooldown, st.current, st.attempts + 1⟩
              (List.replicate j genericFailEvent ++ rest) := by
            rw [ask_run]
            simp only [genericFailEvent, hstep]
        _ = ask_run models sw mr ⟨st.cooldown, st.current, st.attempts + 1 + j⟩ rest := by
            exact ih ⟨st.cooldown, st.current, st.attempts + 1⟩ rest
              (by show st.attempts + 1 + j < mr; omega)
        _ = ask_run models sw mr ⟨st.cooldown, st.current, st.attempts + (j + 1)⟩ rest := by
            have : st.attempts + 1 + j = st.attempts + (j + 1) := by omega
            rw [this]

/-- One rate block never raises and hands the rest of the script a state
with a fresh generic budget. -/
theorem rateBlock_step (models : List String) (sw : ℚ) (mr : ℕ)
    (hne : models ≠ []) (hmr : 1 ≤ mr) (st : AskState) (h0 : st.attempts = 0)
    (rest : List (ℚ × AskEvent)) :
    ∃ st2, ask_run models sw mr st (rateBlock mr ++ rest)
        = ask_run models sw mr st2 rest ∧ st2.attempts = 0 := by
  unfold rateBlock
  rw [List.append_assoc]
  rw [gen_steps models sw mr (mr - 1) st ([rateFailEvent] ++ rest) (by omega)]
  obtain ⟨m, hm⟩ := pick_best_some models
    (fun n => if n = st.current then 0 + parse_retry_delay sw ("429") else st.cooldown n)
    0 hne
  refine ⟨⟨fun n => if n = st.current then 0 + parse_retry_delay sw ("429")
      else st.cooldown n, m.1, 0⟩, ?_, rfl⟩
  have hstep : ask_step models sw mr 0 ⟨st.cooldown, st.current, st.attempts + (mr - 1)⟩
      (AskEvent.failure ("429"))
      = StepResult.cont ⟨fun n => if n = st.current then 0 + parse_retry_delay sw ("429")
          else st.cooldown n, m.1, 0⟩ := by
    rw [ask_step]
    unfold ask_on_error
    rw [err429_rate]
    simp only [if_true, hm]
  rw [List.singleton_append, ask_run]
  simp only [rateFailEvent, hstep]

/-- Any number of rate blocks runs without raising. -/
theorem rateScript_no_raise (models : List String) (sw : ℚ) (mr : ℕ)
    (hne : models ≠ []) (hmr : 1 ≤ mr) :
    ∀ (k : ℕ) (st : AskState), st.attempts = 0 →
      ∀ err, ask_run models sw mr st (rateScript mr k) ≠ AskOutcome.raised err := by
  intro k
  induction k with
  | zero => intro st _ err h; simp [rateScript, ask_run] at h
  | succ k ih =>
      intro st h0 err
      unfold rateScript
      obtain ⟨st2, heq, h02⟩ := rateBlock_step models sw mr hne hmr st h0 (rateScript mr k)
      rw [heq]
      exact ih st2 h02 err

theorem count_replicate_self_ev (x : ℚ × AskEvent) (n : ℕ) :
    (List.replicate n x).count x = n := by
  induction n with
  | zero => simp
  | succ n ih => simp [List.replicate_succ, List.count_cons, ih]

theorem rateScript_generic_count (mr : ℕ) :
    ∀ k, (rateScript mr k).count genericFailEvent = k * (mr - 1) := by
  intro k
  induction k with
  | zero => simp [rateScript]
  | succ k ih =>
      unfold rateScript rateBlock
      rw [List.count_append, List.count_append, ih, count_replicate_self_ev]
      have : ([rateFailEvent] : List (ℚ × AskEvent)).count genericFailEvent = 0 := by decide
      rw [this]
      ring

/-- With a fresh counter, a run of `max_retries` consecutive generic
failures raises the last error. -/
theorem gen_exhaust (models : List String) (sw : ℚ) (mr : ℕ) :
    ∀ (j : ℕ) (st : AskState), 1 ≤ j → st.attempts + j = mr →
      ask_run models sw mr st (List.replicate j genericFailEvent)
        = AskOutcome.raised ("boom") := by
  intro j
  induction j with
  | zero => intro st h1 _; omega
  | succ j ih =>
      intro st _ hmr
      cases Nat.eq_zero_or_pos j with
      | inl hj0 =>
          subst hj0
          have hstep : ask_step models sw mr 0 st (AskEvent.failure ("boom"))
              = StepResult.raised ("boom") := by
            rw [ask_step]
            unfold ask_on_error
            rw [boom_generic.1, boom_generic.2]
            simp only [Bool.false_eq_true, if_false]
            rw [if_neg (by omega : ¬ st.attempts + 1 < mr)]
          rw [show List.replicate 1 genericFailEvent = [genericFailEvent] from rfl]
          rw [ask_run]
          simp only [genericFailEvent, hstep]
      | inr hj1 =>
          have hstep : ask_step models sw mr 0 st (AskEvent.failure ("boom"))
              = StepResult.cont ⟨st.cooldown, st.current, st.attempts + 1⟩ := by
            rw [ask_step]
            unfold ask_on_error
            rw [boom_generic.1, boom_generic.2]
            simp only [Bool.false_eq_true, if_false]
            rw [if_pos (by omega : st.attempts + 1 < mr)]
          rw [List.replicate_succ, ask_run]
          simp only [genericFailEvent, hstep]
          exact ih ⟨st.cooldown, st.current, st.attempts + 1⟩ hj1
            (by show st.attempts + 1 + j = mr; omega)

/-- C10: within one `ask` call a rate-limit failure resets the generic retry
counter to zero; interleaving generic failures with rate-limit signals makes
the total number of generic retries unbounded (k blocks survive, containing
k·(max_retries−1) generic failures); and the budget bounds only a
consecutive run: `max_retries` generic failures in a row from a fresh
counter raise. -/
theorem C10_rate_resets_budget (models : List String) (sw : ℚ) (mr : ℕ)
    (hne : models ≠ []) (hmr : 1 ≤ mr) :
    (∀ (now : ℚ) (st : AskState) (e : String), isRateErr e = true →
      ∃ st2, ask_step models sw mr now st (AskEvent.failure e) = StepResult.cont st2 ∧
        st2.attempts = 0) ∧
    (∀ (k : ℕ) (st : AskState), st.attempts = 0 →
      (∀ err, ask_run models sw mr st (rateScript mr k) ≠ AskOutcome.raised err) ∧
      (rateScript mr k).count genericFailEvent = k * (mr - 1)) ∧
    (∀ st : AskState, st.attempts = 0 →
      ask_run models sw mr st (List.replicate mr genericFailEvent)
        = AskOutcome.raised ("boom")) := by
  refine ⟨?_, ?_, ?_⟩
  · intro now st e hrate
    obtain ⟨m, hm⟩ := pick_best_some models
      (fun n => if n = st.current then now + parse_retry_delay sw e else st.cooldown n)
      now hne
    refine ⟨⟨fun n => if n = st.current then now + parse_retry_delay sw e
        else st.cooldown n, m.1, 0⟩, ?_, rfl⟩
    rw [ask_step]
    unfold ask_on_error
    rw [hrate]
    simp only [if_true, hm]
  · intro k st h0
    exact ⟨rateScript_no_raise models sw mr hne hmr k st h0,
      rateScript_generic_count mr k⟩
  · intro st h0
    exact gen_exhaust models sw mr mr st hmr (by omega)

/-- Witness for C10 at a concrete configuration: one backend, budget 3,
two blocks of interleaved failures survive while three consecutive generic
failures raise. -/
theorem C10_witness :
    (∀ (now : ℚ) (st : AskState) (e : String), isRateErr e = true →
      ∃ st2, ask_step ["A"] 10 3 now st (AskEvent.failure e) = StepResult.cont st2 ∧
        st2.attempts = 0) ∧
    (∀ (k : ℕ) (st : AskState), st.attempts = 0 →
      (∀ err, ask_run ["A"] 10 3 st (rateScript 3 k) ≠ AskOutcome.raised err) ∧
      (rateScript 3 k).count genericFailEvent = k * (3 - 1)) ∧
    (∀ st : AskState, st.attempts = 0 →
      ask_run ["A"] 10 3 st (List.replicate 3 genericFailEvent)
        = AskOutcome.raised ("boom")) :=
  C10_rate_resets_budget ["A"] 10 3 (by simp) (by omega)

/-! ## Iteration controller (orchestrator.py) -/

/-- The evaluator's verdict (`ArtifactEvaluator` is an opaque collaborator;
the dict `{"passed": ..., "reason": ..., "note": ...}` is modelled as a
structure). -/
structure EvalResult where
  passed : Bool
  reason : String
  note : String

/-- `f"iter-{n:04d}"`-style zero padding. -/
def pad4 (n : ℕ) : String :=
  let s := toString n
  if s.length < 4 then String.mk (List.replicate (4 - s.length) '0') ++ s else s

/-- `Orchestrator._run_single_attempt`: the implementer payload (the
`ask_json` result) and the evaluator verdict are the attempt's oracles.  An
empty payload or one without a `files` key short-circuits to a failed
verdict without writing; otherwise the files are written through the
executor and the evaluator's verdict is returned.  (A validated implementer
payload always carries `files` as a JSON array; other shapes would not
survive `ask_json`.) -/
def run_single_attempt (root : List String) (ws : FileStore)
    (impl_result : List (String × JValue)) (eval_result : EvalResult) :
    (List (String × JValue)) × EvalResult × FileStore :=
  if impl_result.isEmpty || (jLookup impl_result ("files")).isNone then
    ([], ⟨false, ("実装AIの出力が不正"), ("")⟩, ws)
  else
    let files := match jLookup impl_result ("files") with
      | some (JValue.arr items) => items
      | _ => []
    (impl_result, eval_result, write_files root files ws)

structure OrchState where
  workspace : FileStore
  consecutive_passes : ℕ
  no_change_streak : ℕ
  iteration : ℕ

inductive GitAction where
  | commit (msg : String)
  | push

/-- `Orchestrator._run_iteration`: snapshot the workspace as "pre", run the
first attempt; on failure roll back to "pre" and run the feedback attempt;
on a pass commit (with the payload's message or the iteration tag), bump
`consecutive_passes`, and update `no_change_streak` from the commit result;
on a terminal failure roll back to "pre" and reset `consecutive_passes`.
The status and log documents live outside the workspace directory and the
"post" snapshots copy without mutating, so neither appears in the state. -/
def run_iteration (root : List String) (st : OrchState)
    (impl1 : List (String × JValue)) (eval1 : EvalResult)
    (impl2 : List (String × JValue)) (eval2 : EvalResult)
    (commitOk : Bool) (shouldPush : Bool) : OrchState × List GitAction :=
  let iter2 := st.iteration + 1
  let pre := st.workspace
  let r1 := run_single_attempt root st.workspace impl1 eval1
  let r2 := if r1.2.1.passed then r1 else run_single_attempt root pre impl2 eval2
  if r2.2.1.passed then
    let commit_msg := jStrD r2.1 ("commit_message") (("iter-") ++ pad4 iter2)
    (⟨r2.2.2, st.consecutive_passes + 1,
        (if commitOk then 0 else st.no_change_streak + 1), iter2⟩,
     [GitAction.commit commit_msg] ++ (if shouldPush then [GitAction.push] else []))
  else
    (⟨pre, 0, st.no_change_streak, iter2⟩, [])

theorem run_single_attempt_fail (root : List String) (ws : FileStore)
    (impl : List (String × JValue)) (ev : EvalResult) (h : ev.passed = false) :
    (run_single_attempt root ws impl ev).2.1.passed = false := by
  unfold run_single_attempt
  by_cases hc : (impl.isEmpty || (jLookup impl ("files")).isNone) = true
  · simp [hc]
  · simp [hc, h]

/-- C1: when both attempts of an iteration fail, the workspace at the end of
the iteration equals the "pre" snapshot taken before the first attempt,
`consecutive_passes` is reset to 0, no git action (in particular no commit)
is attempted, and the iteration number still advances. -/
theorem C1_both_attempts_fail (root : List String) (st : OrchState)
    (impl1 : List (String × JValue)) (eval1 : EvalResult)
    (impl2 : List (String × JValue)) (eval2 : EvalResult)
    (commitOk shouldPush : Bool)
    (h1 : eval1.passed = false) (h2 : eval2.passed = false) :
    (run_iteration root st impl1 eval1 impl2 eval2 commitOk shouldPush).1.workspace
        = st.workspace ∧
    (run_iteration root st impl1 eval1 impl2 eval2 commitOk
        shouldPush).1.consecutive_passes = 0 ∧
    (run_iteration root st impl1 eval1 impl2 eval2 commitOk shouldPush).2 = [] ∧
    (run_iteration root st impl1 eval1 impl2 eval2 commitOk shouldPush).1.iteration
        = st.iteration + 1 := by
  have hf1 := run_single_attempt_fail root st.workspace impl1 eval1 h1
  have hf2 := run_single_attempt_fail root st.workspace impl2 eval2 h2
  unfold run_iteration
  simp [hf1, hf2]

/-- Witness for C1 at a concrete failing iteration. -/
theorem C1_witness :
    (run_iteration ["proj", "workspace"] ⟨emptyStore, 2, 1, 7⟩
        [] ⟨false, ("評価失敗"), ("")⟩
        [(("files"), JValue.arr [])] ⟨false, ("評価失敗"), ("")⟩
        true false).1.workspace = emptyStore ∧
    (run_iteration ["proj", "workspace"] ⟨emptyStore, 2, 1, 7⟩
        [] ⟨false, ("評価失敗"), ("")⟩
        [(("files"), JValue.arr [])] ⟨false, ("評価失敗"), ("")⟩
        true false).1.consecutive_passes = 0 ∧
    (run_iteration ["proj", "workspace"] ⟨emptyStore, 2, 1, 7⟩
        [] ⟨false, ("評価失敗"), ("")⟩
        [(("files"), JValue.arr [])] ⟨false, ("評価失敗"), ("")⟩
        true false).2 = [] ∧
    (run_iteration ["proj", "workspace"] ⟨emptyStore, 2, 1, 7⟩
        [] ⟨false, ("評価失敗"), ("")⟩
        [(("files"), JValue.arr [])] ⟨false, ("評価失敗"), ("")⟩
        true false).1.iteration = 7 + 1 :=
  C1_both_attempts_fail ["proj", "workspace"] ⟨emptyStore, 2, 1, 7⟩
    [] ⟨false, ("評価失敗"), ("")⟩
    [(("files"), JValue.arr [])] ⟨false, ("評価失敗"), ("")⟩
    true false rfl rfl
